import Mathlib

/-!
Task service and its HTTP handlers.

A shallow embedding of `api/service/task_service.go` and
`api/controller/task_controller.go`.

* A Go slice of tasks is a `List`; an operation with a pointer receiver returns
  its response together with the receiver after the call.
* The three `for i, task := range ts.Tasks` loops are one scan, `rangeScan`,
  which yields the iteration (index and element) at which the loop body returns.
* An HTTP exchange is a `Request` value in, a `Response` value out. What the
  standard library does (`http.Error`, `strconv.ParseInt`, `url.Values.Get`) is
  written out; the JSON decoder is a parameter of the handlers that read a body.
-/

namespace model

/-- Modelled from the spec: the `model.Task` type declaration (package `api/model`
is imported by the service but is not among the sources). The spec gives a task a
numeric identifier, a title, a description and a done flag; the service reads the
identifier as `task.ID` and compares it with an `int64`. The identifier is only ever
compared for equality, never computed with, so it is an unbounded `Int` here. -/
structure Task where
  ID : Int
  Title : String
  Description : String
  Done : Bool
deriving DecidableEq, Repr

/-- The Go zero value of `model.Task`, what a composite literal with no fields holds. -/
def Task.zero : Task := ⟨0, "", "", false⟩

end model

namespace service

open model

structure ErrorResponse where
  Error : String
deriving DecidableEq, Repr

structure TaskService where
  Tasks : List Task
deriving DecidableEq, Repr

structure CreateTaskRequest where
  Task : model.Task
deriving DecidableEq, Repr

structure CreateTaskResponse where
  Task : model.Task
deriving DecidableEq, Repr

structure UpdateTaskRequest where
  UpdatedTask : Task
deriving DecidableEq, Repr

structure UpdateTaskResponse where
  UpdatedTask : Task
deriving DecidableEq, Repr

structure DeleteTaskRequest where
deriving DecidableEq, Repr

structure DeleteTaskResponse where
  DeletedTask : Task
deriving DecidableEq, Repr

structure GetTaskRequest where
deriving DecidableEq, Repr

structure GetTaskResponse where
  Task : model.Task
deriving DecidableEq, Repr

structure ListTasksRequest where
deriving DecidableEq, Repr

structure ListTasksResponse where
  Tasks : List Task
deriving DecidableEq, Repr

/-- The scan `for i, task := range tasks { if task.ID == id { ...; return } }`:
the index and the element of the first iteration whose guard holds, counting
indices from `i`; `none` when the loop runs off the end of the slice. -/
def rangeScan (id : Int) : List Task → Nat → Option (Nat × Task)
  | [], _ => none
  | task :: rest, i => if task.ID = id then some (i, task) else rangeScan id rest (i + 1)

/-- CreateTask creates a new task and adds it to the task list. -/
def CreateTask (ts : TaskService) (req : CreateTaskRequest) : CreateTaskResponse × TaskService :=
  let task := req.Task
  (⟨task⟩, ⟨ts.Tasks ++ [task]⟩)

/-- UpdateTask updates the details of an existing task. -/
def UpdateTask (ts : TaskService) (id : Int) (req : UpdateTaskRequest) :
    UpdateTaskResponse × TaskService :=
  let updatedTask := req.UpdatedTask
  match rangeScan id ts.Tasks 0 with
  | some (i, _) => (⟨updatedTask⟩, ⟨ts.Tasks.set i updatedTask⟩)
  | none => (⟨Task.zero⟩, ts)

/-- DeleteTask removes a task from the task list:
`append(ts.Tasks[:i], ts.Tasks[i+1:]...)` at the first matching index. -/
def DeleteTask (ts : TaskService) (id : Int) (_req : DeleteTaskRequest) :
    DeleteTaskResponse × TaskService :=
  match rangeScan id ts.Tasks 0 with
  | some (i, task) => (⟨task⟩, ⟨ts.Tasks.take i ++ ts.Tasks.drop (i + 1)⟩)
  | none => (⟨Task.zero⟩, ts)

/-- GetTask retrieves a task with the given ID from the task list. -/
def GetTask (ts : TaskService) (id : Int) (_req : GetTaskRequest) :
    GetTaskResponse × TaskService :=
  match rangeScan id ts.Tasks 0 with
  | some (_, task) => (⟨task⟩, ts)
  | none => (⟨Task.zero⟩, ts)

/-- ListTasks returns all the tasks in the task list. -/
def ListTasks (ts : TaskService) (_req : ListTasksRequest) : ListTasksResponse × TaskService :=
  (⟨ts.Tasks⟩, ts)

/-- The record `t` sits at index `i` of `l`, carries the identifier `id`, and no
record at a smaller index does: `i` is the smallest index whose ID equals `id`. -/
def FirstMatch (l : List Task) (id : Int) (i : Nat) (t : Task) : Prop :=
  l[i]? = some t ∧ t.ID = id ∧ ∀ j r, j < i → l[j]? = some r → r.ID ≠ id

/-- The stored IDs are pairwise distinct: no two positions of the sequence carry the
same ID. -/
def DistinctIDs (l : List Task) : Prop :=
  l.Pairwise (fun a b => a.ID ≠ b.ID)

instance (l : List Task) : Decidable (DistinctIDs l) := by
  unfold DistinctIDs
  infer_instance

end service

namespace controller

open model service

/-- The part of `*http.Request` the handlers read: the method, the parsed query
string (`r.URL.Query()`, key and value pairs in order) and the body. -/
structure Request where
  Method : String
  Query : List (String × String)
  Body : String
deriving DecidableEq, Repr

/-- The Go method `url.Values.Get`: the first value of the key, the empty string
when the key is absent. -/
def queryGet (q : List (String × String)) (key : String) : String :=
  match q.find? (fun kv => kv.1 == key) with
  | some kv => kv.2
  | none => ""

/-- The call `strconv.ParseInt(s, 10, 64)`: an optional sign, then one or more
decimal digits, the value within the range of `int64`; `none` for an error
(syntax or range). -/
def ParseInt (s : String) : Option Int :=
  let cs := s.toList
  let neg := cs.head? = some '-'
  let ds := if cs.head? = some '+' ∨ cs.head? = some '-' then cs.tail else cs
  if ds = [] ∨ ¬ ds.all Char.isDigit then none
  else
    let un : Nat := ds.foldl (fun a c => a * 10 + (c.toNat - 48)) 0
    if neg then (if un > 2 ^ 63 then none else some (-(un : Int)))
    else (if un ≥ 2 ^ 63 then none else some (un : Int))

/-- What a handler hands to `json.NewEncoder(w).Encode`. -/
inductive Payload where
  | create (r : CreateTaskResponse)
  | update (r : UpdateTaskResponse)
  | delete (r : DeleteTaskResponse)
  | get (r : GetTaskResponse)
  | list (r : ListTasksResponse)
  | error (r : ErrorResponse)
deriving DecidableEq, Repr

/-- A response body: text written as is, or the JSON encoding of a payload. -/
inductive Body where
  | text (s : String)
  | json (p : Payload)
deriving DecidableEq, Repr

/-- What the handler leaves in the `http.ResponseWriter`. -/
structure Response where
  Status : Nat
  ContentType : String
  Body : Body
deriving DecidableEq, Repr

/-- The call `http.Error(w, msg, code)`: a plain-text response whose body is the
message followed by a newline. -/
def httpError (msg : String) (code : Nat) : Response :=
  ⟨code, "text/plain; charset=utf-8", .text (msg ++ "\n")⟩

/-- Setting `Content-Type: application/json` and encoding `p`; the status is the
implicit 200 of the first write. -/
def writeJSON (p : Payload) : Response :=
  ⟨200, "application/json", .json p⟩

structure TaskController where
  TaskService : service.TaskService
deriving DecidableEq, Repr

def CreateTaskHandler (decode : String → Option CreateTaskRequest)
    (tc : TaskController) (r : Request) : Response × TaskController :=
  if r.Method ≠ "POST" then (httpError "Not Found" 404, tc)
  else
    match decode r.Body with
    | none => (httpError "Invalid request body" 400, tc)
    | some req =>
      let (resp, ts) := CreateTask tc.TaskService req
      (writeJSON (.create resp), ⟨ts⟩)

def UpdateTaskHandler (decode : String → Option UpdateTaskRequest)
    (tc : TaskController) (r : Request) : Response × TaskController :=
  if r.Method ≠ "PUT" then (httpError "Not Found" 404, tc)
  else
    match ParseInt (queryGet r.Query "id") with
    | none => (httpError "Invalid task ID" 400, tc)
    | some taskID =>
      match decode r.Body with
      | none => (httpError "Invalid request body" 400, tc)
      | some req =>
        let (resp, ts) := UpdateTask tc.TaskService taskID req
        (writeJSON (.update resp), ⟨ts⟩)

def DeleteTaskHandler (tc : TaskController) (r : Request) : Response × TaskController :=
  if r.Method ≠ "DELETE" then (httpError "Not Found" 404, tc)
  else
    match ParseInt (queryGet r.Query "id") with
    | none => (httpError "Invalid task ID" 400, tc)
    | some taskID =>
      let (resp, ts) := DeleteTask tc.TaskService taskID {}
      (writeJSON (.delete resp), ⟨ts⟩)

def GetTaskHandler (tc : TaskController) (r : Request) : Response × TaskController :=
  if r.Method ≠ "GET" then (httpError "Not Found" 404, tc)
  else
    match ParseInt (queryGet r.Query "id") with
    | none => (httpError "Invalid task ID" 400, tc)
    | some taskID =>
      let (resp, ts) := GetTask tc.TaskService taskID {}
      (writeJSON (.get resp), ⟨ts⟩)

def ListTasksHandler (tc : TaskController) (r : Request) : Response × TaskController :=
  if r.Method ≠ "GET" then (httpError "Not Found" 404, tc)
  else
    let (resp, ts) := ListTasks tc.TaskService {}
    (writeJSON (.list resp), ⟨ts⟩)

end controller

namespace service

open model

/-! ## The scan -/

theorem rangeScan_index_ge (id : Int) :
    ∀ (l : List Task) (k i : Nat) (t : Task), rangeScan id l k = some (i, t) → k ≤ i := by
  intro l
  induction l with
  | nil => intro k i t h; simp [rangeScan] at h
  | cons a rest ih =>
    intro k i t h
    by_cases ha : a.ID = id
    · simp [rangeScan, ha] at h
      omega
    · simp only [rangeScan, ha, if_false] at h
      have := ih (k + 1) i t h
      omega

theorem rangeScan_eq_none (id : Int) :
    ∀ (l : List Task) (k : Nat), rangeScan id l k = none ↔ ∀ t ∈ l, t.ID ≠ id := by
  intro l
  induction l with
  | nil => intro k; simp [rangeScan]
  | cons a rest ih =>
    intro k
    by_cases ha : a.ID = id
    · simp [rangeScan, ha]
    · simp [rangeScan, ha, ih (k + 1)]

theorem rangeScan_eq_some (id : Int) :
    ∀ (l : List Task) (k i : Nat) (t : Task),
      rangeScan id l k = some (i, t) ↔ k ≤ i ∧ FirstMatch l id (i - k) t := by
  intro l
  induction l with
  | nil => intro k i t; simp [rangeScan, FirstMatch]
  | cons a rest ih =>
    intro k i t
    by_cases ha : a.ID = id
    · simp only [rangeScan, ha, if_true, Option.some.injEq, Prod.mk.injEq]
      constructor
      · rintro ⟨rfl, rfl⟩
        refine ⟨le_refl _, ?_, ha, ?_⟩
        · simp
        · intro j r hj; omega
      · rintro ⟨hk, hget, _, hmin⟩
        have hz : i - k = 0 := by
          by_contra hne
          exact hmin 0 a (Nat.pos_of_ne_zero hne) (by simp) ha
        rw [hz] at hget
        simp at hget
        exact ⟨by omega, hget⟩
    · simp only [rangeScan, ha, if_false]
      rw [ih (k + 1) i t]
      constructor
      · rintro ⟨hk, hget, hid, hmin⟩
        have hs : i - k = (i - (k + 1)) + 1 := by omega
        refine ⟨by omega, ?_, hid, ?_⟩
        · rw [hs]; simpa using hget
        · intro j r hj hjr
          cases j with
          | zero => simp at hjr; subst hjr; exact ha
          | succ j =>
            simp at hjr
            exact hmin j r (by omega) hjr
      · rintro ⟨hk, hget, hid, hmin⟩
        have hpos : i - k ≠ 0 := by
          intro hz
          rw [hz] at hget
          simp at hget
          subst hget
          exact ha hid
        have hs : i - k = (i - (k + 1)) + 1 := by omega
        refine ⟨by omega, ?_, hid, ?_⟩
        · rw [hs] at hget; simpa using hget
        · intro j r hj hjr
          exact hmin (j + 1) r (by omega) (by simpa using hjr)

theorem rangeScan_zero_eq_some (id : Int) (l : List Task) (i : Nat) (t : Task) :
    rangeScan id l 0 = some (i, t) ↔ FirstMatch l id i t := by
  simp [rangeScan_eq_some]

theorem rangeScan_of_mem (id : Int) (l : List Task) (h : ∃ t ∈ l, t.ID = id) :
    ∃ i t, rangeScan id l 0 = some (i, t) := by
  cases hs : rangeScan id l 0 with
  | none =>
    obtain ⟨t, ht, hid⟩ := h
    exact absurd hid ((rangeScan_eq_none id l 0).1 hs t ht)
  | some p => exact ⟨p.1, p.2, rfl⟩

theorem FirstMatch.lt_length {l : List Task} {id : Int} {i : Nat} {t : Task}
    (h : FirstMatch l id i t) : i < l.length := by
  have := h.1
  exact (List.getElem?_eq_some.1 this).1

theorem FirstMatch.unique {l : List Task} {id : Int} {i j : Nat} {t r : Task}
    (h : FirstMatch l id i t) (h2 : FirstMatch l id j r) : i = j ∧ t = r := by
  have hij : i = j := by
    rcases Nat.lt_trichotomy i j with hlt | heq | hgt
    · exact absurd h.2.1 (h2.2.2 i t hlt h.1)
    · exact heq
    · exact absurd h2.2.1 (h.2.2 j r hgt h2.1)
  subst hij
  have := h.1.symm.trans h2.1
  exact ⟨rfl, by simpa using this⟩

theorem rangeScan_append (id : Int) :
    ∀ (l l2 : List Task) (k : Nat),
      rangeScan id (l ++ l2) k
        = (rangeScan id l k).orElse (fun _ => rangeScan id l2 (k + l.length)) := by
  intro l
  induction l with
  | nil => intro l2 k; simp [rangeScan]
  | cons a rest ih =>
    intro l2 k
    by_cases ha : a.ID = id
    · simp [rangeScan, ha]
    · have hk : k + 1 + rest.length = k + (rest.length + 1) := by omega
      show rangeScan id (a :: (rest ++ l2)) k = _
      simp only [rangeScan, ha, if_false, List.length_cons]
      rw [ih l2 (k + 1), hk]

theorem rangeScan_append_of_mem (id : Int) (l l2 : List Task) (h : ∃ t ∈ l, t.ID = id) :
    rangeScan id (l ++ l2) 0 = rangeScan id l 0 := by
  obtain ⟨i, t, hs⟩ := rangeScan_of_mem id l h
  rw [rangeScan_append, hs]
  rfl

theorem DeleteTask_of_scan (ts : TaskService) (id : Int) (i : Nat) (t : Task)
    (hs : rangeScan id ts.Tasks 0 = some (i, t)) :
    DeleteTask ts id {} = (⟨t⟩, ⟨ts.Tasks.eraseIdx i⟩) := by
  simp [DeleteTask, hs, List.eraseIdx_eq_take_drop_succ]

theorem GetTask_of_absent (ts : TaskService) (id : Int) (h : ∀ t ∈ ts.Tasks, t.ID ≠ id) :
    GetTask ts id {} = (⟨Task.zero⟩, ts) := by
  simp [GetTask, (rangeScan_eq_none id ts.Tasks 0).2 h]

theorem rangeScan_eraseIdx_absent (id : Int) :
    ∀ (l : List Task) (k i : Nat) (t : Task), rangeScan id l k = some (i, t) →
      l.countP (fun r => decide (r.ID = id)) = 1 → ∀ r ∈ l.eraseIdx (i - k), r.ID ≠ id := by
  intro l
  induction l with
  | nil => intro k i t h; simp [rangeScan] at h
  | cons a rest ih =>
    intro k i t h hc
    by_cases ha : a.ID = id
    · simp only [rangeScan, ha, if_true, Option.some.injEq, Prod.mk.injEq] at h
      obtain ⟨rfl, -⟩ := h
      have hc0 : rest.countP (fun r => decide (r.ID = id)) = 0 := by
        simpa [List.countP_cons, ha] using hc
      rw [List.countP_eq_zero] at hc0
      intro r hr
      simp only [Nat.sub_self, List.eraseIdx_cons_zero] at hr
      simpa using hc0 r hr
    · simp only [rangeScan, ha, if_false] at h
      have hge := rangeScan_index_ge id rest (k + 1) i t h
      have hs : i - k = (i - (k + 1)) + 1 := by omega
      have hc1 : rest.countP (fun r => decide (r.ID = id)) = 1 := by
        simpa [List.countP_cons, ha] using hc
      intro r hr
      rw [hs, List.eraseIdx_cons_succ, List.mem_cons] at hr
      rcases hr with rfl | hr
      · exact ha
      · exact ih (k + 1) i t h hc1 r hr

theorem rangeScan_set (id : Int) (u : Task) (hu : u.ID = id) :
    ∀ (l : List Task) (k i : Nat) (t : Task), rangeScan id l k = some (i, t) →
      rangeScan id (l.set (i - k) u) k = some (i, u) := by
  intro l
  induction l with
  | nil => intro k i t h; simp [rangeScan] at h
  | cons a rest ih =>
    intro k i t h
    by_cases ha : a.ID = id
    · simp only [rangeScan, ha, if_true, Option.some.injEq, Prod.mk.injEq] at h
      obtain ⟨rfl, -⟩ := h
      simp [rangeScan, hu]
    · simp only [rangeScan, ha, if_false] at h
      have hge := rangeScan_index_ge id rest (k + 1) i t h
      have hs : i - k = (i - (k + 1)) + 1 := by omega
      rw [hs, List.set_cons_succ]
      simp only [rangeScan, ha, if_false]
      exact ih (k + 1) i t h

end service

namespace service

open model

/-! ## Create, update, delete, get -/

/-- C1. CreateTask leaves the task sequence equal to the previous sequence with the
given task appended at the end: the length grows by one, every earlier position holds
the record it held before, the last position holds the task, whatever IDs are already
stored. It returns the task verbatim. -/
theorem CreateTask_appends_verbatim (ts : TaskService) (t : Task) :
    (CreateTask ts ⟨t⟩).2.Tasks = ts.Tasks ++ [t]
      ∧ (CreateTask ts ⟨t⟩).2.Tasks.length = ts.Tasks.length + 1
      ∧ (∀ i, i < ts.Tasks.length → (CreateTask ts ⟨t⟩).2.Tasks[i]? = ts.Tasks[i]?)
      ∧ (CreateTask ts ⟨t⟩).2.Tasks[ts.Tasks.length]? = some t
      ∧ (CreateTask ts ⟨t⟩).1 = ⟨t⟩ := by
  refine ⟨rfl, ?_, ?_, ?_, rfl⟩
  · simp [CreateTask]
  · intro i hi
    simp [CreateTask, List.getElem?_append_left hi]
  · simp [CreateTask]

/-- C2. When some stored record has ID `id`, UpdateTask replaces the record at the
smallest index whose ID equals `id` with the replacement `u` (the whole record, its ID
included), leaves the length and every other position unchanged, and returns `u`. -/
theorem UpdateTask_replaces_first_match (ts : TaskService) (id : Int) (u : Task)
    (h : ∃ t ∈ ts.Tasks, t.ID = id) :
    ∃ i old, FirstMatch ts.Tasks id i old
      ∧ (UpdateTask ts id ⟨u⟩).2.Tasks = ts.Tasks.set i u
      ∧ (UpdateTask ts id ⟨u⟩).2.Tasks[i]? = some u
      ∧ (∀ j, j ≠ i → (UpdateTask ts id ⟨u⟩).2.Tasks[j]? = ts.Tasks[j]?)
      ∧ (UpdateTask ts id ⟨u⟩).2.Tasks.length = ts.Tasks.length
      ∧ (UpdateTask ts id ⟨u⟩).1 = ⟨u⟩ := by
  obtain ⟨i, old, hs⟩ := rangeScan_of_mem id ts.Tasks h
  have hfm := (rangeScan_zero_eq_some id ts.Tasks i old).1 hs
  have hlt := hfm.lt_length
  refine ⟨i, old, hfm, ?_, ?_, ?_, ?_, ?_⟩
  · simp [UpdateTask, hs]
  · simp [UpdateTask, hs, hlt]
  · intro j hj
    simp [UpdateTask, hs, List.getElem?_set_ne (Ne.symm hj)]
  · simp [UpdateTask, hs]
  · simp [UpdateTask, hs]

/-- A witness of C2: a store with two records of ID 7, the first at index 1. -/
theorem UpdateTask_replaces_first_match_witness :
    ∃ i old, FirstMatch [⟨3, "a", "", false⟩, ⟨7, "b", "", false⟩, ⟨7, "c", "", true⟩] 7 i old
      ∧ (UpdateTask ⟨[⟨3, "a", "", false⟩, ⟨7, "b", "", false⟩, ⟨7, "c", "", true⟩]⟩ 7
          ⟨⟨9, "new", "n", true⟩⟩).2.Tasks
        = ([⟨3, "a", "", false⟩, ⟨7, "b", "", false⟩, ⟨7, "c", "", true⟩] : List Task).set i
            ⟨9, "new", "n", true⟩
      ∧ (UpdateTask ⟨[⟨3, "a", "", false⟩, ⟨7, "b", "", false⟩, ⟨7, "c", "", true⟩]⟩ 7
          ⟨⟨9, "new", "n", true⟩⟩).2.Tasks[i]? = some ⟨9, "new", "n", true⟩
      ∧ (∀ j, j ≠ i →
          (UpdateTask ⟨[⟨3, "a", "", false⟩, ⟨7, "b", "", false⟩, ⟨7, "c", "", true⟩]⟩ 7
            ⟨⟨9, "new", "n", true⟩⟩).2.Tasks[j]?
          = ([⟨3, "a", "", false⟩, ⟨7, "b", "", false⟩, ⟨7, "c", "", true⟩] : List Task)[j]?)
      ∧ (UpdateTask ⟨[⟨3, "a", "", false⟩, ⟨7, "b", "", false⟩, ⟨7, "c", "", true⟩]⟩ 7
          ⟨⟨9, "new", "n", true⟩⟩).2.Tasks.length
        = ([⟨3, "a", "", false⟩, ⟨7, "b", "", false⟩, ⟨7, "c", "", true⟩] : List Task).length
      ∧ (UpdateTask ⟨[⟨3, "a", "", false⟩, ⟨7, "b", "", false⟩, ⟨7, "c", "", true⟩]⟩ 7
          ⟨⟨9, "new", "n", true⟩⟩).1 = ⟨⟨9, "new", "n", true⟩⟩ :=
  UpdateTask_replaces_first_match
    ⟨[⟨3, "a", "", false⟩, ⟨7, "b", "", false⟩, ⟨7, "c", "", true⟩]⟩ 7 ⟨9, "new", "n", true⟩
    (by decide)

end service

namespace service

open model

/-- C3. When some stored record has ID `id`, DeleteTask removes exactly the record at
the smallest index whose ID equals `id`: the resulting sequence is the original with
that one position erased (one record fewer, the records before it in place, the records
after it moved down by one, so relative order is kept), and the removed record is
returned. -/
theorem DeleteTask_erases_first_match (ts : TaskService) (id : Int)
    (h : ∃ t ∈ ts.Tasks, t.ID = id) :
    ∃ i old, FirstMatch ts.Tasks id i old
      ∧ (DeleteTask ts id {}).2.Tasks = ts.Tasks.eraseIdx i
      ∧ (DeleteTask ts id {}).2.Tasks.length + 1 = ts.Tasks.length
      ∧ (∀ j, j < i → (DeleteTask ts id {}).2.Tasks[j]? = ts.Tasks[j]?)
      ∧ (∀ j, i ≤ j → (DeleteTask ts id {}).2.Tasks[j]? = ts.Tasks[j + 1]?)
      ∧ (DeleteTask ts id {}).1 = ⟨old⟩ := by
  obtain ⟨i, old, hs⟩ := rangeScan_of_mem id ts.Tasks h
  have hfm := (rangeScan_zero_eq_some id ts.Tasks i old).1 hs
  have hlt := hfm.lt_length
  have he : (DeleteTask ts id {}).2.Tasks = ts.Tasks.eraseIdx i := by
    simp [DeleteTask, hs, List.eraseIdx_eq_take_drop_succ]
  refine ⟨i, old, hfm, he, ?_, ?_, ?_, ?_⟩
  · rw [he, List.length_eraseIdx_of_lt hlt]
    omega
  · intro j hj
    rw [he, List.getElem?_eraseIdx_of_lt _ _ _ hj]
  · intro j hj
    rw [he, List.getElem?_eraseIdx_of_ge _ _ _ hj]
  · simp [DeleteTask, hs]

/-- A witness of C3: deleting ID 7 from a store that holds it twice. -/
theorem DeleteTask_erases_first_match_witness :
    ∃ i old, FirstMatch [⟨3, "a", "", false⟩, ⟨7, "b", "", false⟩, ⟨7, "c", "", true⟩] 7 i old
      ∧ (DeleteTask ⟨[⟨3, "a", "", false⟩, ⟨7, "b", "", false⟩, ⟨7, "c", "", true⟩]⟩ 7 {}).2.Tasks
        = ([⟨3, "a", "", false⟩, ⟨7, "b", "", false⟩, ⟨7, "c", "", true⟩] : List Task).eraseIdx i
      ∧ (DeleteTask ⟨[⟨3, "a", "", false⟩, ⟨7, "b", "", false⟩, ⟨7, "c", "", true⟩]⟩ 7
          {}).2.Tasks.length + 1
        = ([⟨3, "a", "", false⟩, ⟨7, "b", "", false⟩, ⟨7, "c", "", true⟩] : List Task).length
      ∧ (∀ j, j < i →
          (DeleteTask ⟨[⟨3, "a", "", false⟩, ⟨7, "b", "", false⟩, ⟨7, "c", "", true⟩]⟩ 7
            {}).2.Tasks[j]?
          = ([⟨3, "a", "", false⟩, ⟨7, "b", "", false⟩, ⟨7, "c", "", true⟩] : List Task)[j]?)
      ∧ (∀ j, i ≤ j →
          (DeleteTask ⟨[⟨3, "a", "", false⟩, ⟨7, "b", "", false⟩, ⟨7, "c", "", true⟩]⟩ 7
            {}).2.Tasks[j]?
          = ([⟨3, "a", "", false⟩, ⟨7, "b", "", false⟩, ⟨7, "c", "", true⟩] : List Task)[j + 1]?)
      ∧ (DeleteTask ⟨[⟨3, "a", "", false⟩, ⟨7, "b", "", false⟩, ⟨7, "c", "", true⟩]⟩ 7 {}).1
        = ⟨old⟩ :=
  DeleteTask_erases_first_match
    ⟨[⟨3, "a", "", false⟩, ⟨7, "b", "", false⟩, ⟨7, "c", "", true⟩]⟩ 7 (by decide)

/-- C4. GetTask never modifies the sequence; when some stored record has ID `id` it
returns the record at the smallest index whose ID equals `id`; and after CreateTask of
a task whose ID is already used by a stored record, GetTask for that ID still returns
that earlier record (the first match of the store as it was before the create), not the
record appended by the create. -/
theorem GetTask_returns_first_match (ts : TaskService) (id : Int) :
    (GetTask ts id {}).2 = ts
      ∧ ((∃ t ∈ ts.Tasks, t.ID = id) →
          ∃ i t, FirstMatch ts.Tasks id i t ∧ (GetTask ts id {}).1 = ⟨t⟩)
      ∧ (∀ new : Task, new.ID = id → (∃ t ∈ ts.Tasks, t.ID = id) →
          ∃ i t, i < ts.Tasks.length ∧ FirstMatch ts.Tasks id i t
            ∧ (GetTask (CreateTask ts ⟨new⟩).2 id {}).1 = ⟨t⟩
            ∧ (GetTask (CreateTask ts ⟨new⟩).2 id {}).1 = (GetTask ts id {}).1) := by
  have key : (∃ t ∈ ts.Tasks, t.ID = id) →
      ∃ i t, FirstMatch ts.Tasks id i t ∧ (GetTask ts id {}).1 = ⟨t⟩ := by
    intro h
    obtain ⟨i, t, hs⟩ := rangeScan_of_mem id ts.Tasks h
    exact ⟨i, t, (rangeScan_zero_eq_some id ts.Tasks i t).1 hs, by simp [GetTask, hs]⟩
  refine ⟨?_, key, ?_⟩
  · unfold GetTask
    cases rangeScan id ts.Tasks 0 <;> rfl
  · intro new _ h
    obtain ⟨i, t, hfm, hget⟩ := key h
    have hsame : (GetTask (CreateTask ts ⟨new⟩).2 id {}).1 = (GetTask ts id {}).1 := by
      simp only [GetTask, CreateTask, rangeScan_append_of_mem id ts.Tasks [new] h]
      cases rangeScan id ts.Tasks 0 <;> rfl
    exact ⟨i, t, hfm.lt_length, hfm, hsame.trans hget, hsame⟩

/-- A witness of C4: a second record with ID 7 is created; the lookup still returns the
first one. -/
theorem GetTask_returns_first_match_witness :
    (GetTask (CreateTask ⟨[⟨3, "a", "", false⟩, ⟨7, "b", "", false⟩]⟩ ⟨⟨7, "c", "", true⟩⟩).2 7
        {}).1 = ⟨⟨7, "b", "", false⟩⟩ := by
  obtain ⟨i, t, _, hfm, hget, _⟩ :=
    (GetTask_returns_first_match ⟨[⟨3, "a", "", false⟩, ⟨7, "b", "", false⟩]⟩ 7).2.2
      ⟨7, "c", "", true⟩ rfl (by decide)
  have h1 : FirstMatch [⟨3, "a", "", false⟩, ⟨7, "b", "", false⟩] 7 1 ⟨7, "b", "", false⟩ := by
    refine ⟨rfl, rfl, ?_⟩
    intro j r hj hr
    have hj0 : j = 0 := by omega
    subst hj0
    simp at hr
    subst hr
    decide
  rw [hget, (hfm.unique h1).2]

end service

namespace service

open model

/-- C5 as stated fails: with two stored records of ID 1, deleting ID 1 removes only the
first, and the following GetTask for ID 1 returns the second, not the zero value. -/
theorem DeleteTask_then_GetTask_duplicate_id :
    (∃ t ∈ (⟨[⟨1, "a", "", false⟩, ⟨1, "b", "", false⟩]⟩ : TaskService).Tasks, t.ID = 1)
      ∧ (GetTask (DeleteTask ⟨[⟨1, "a", "", false⟩, ⟨1, "b", "", false⟩]⟩ 1 {}).2 1 {}).1
          = ⟨⟨1, "b", "", false⟩⟩
      ∧ (GetTask (DeleteTask ⟨[⟨1, "a", "", false⟩, ⟨1, "b", "", false⟩]⟩ 1 {}).2 1 {}).1
          ≠ ⟨Task.zero⟩ := by
  decide

/-- C5, amended. When exactly one stored record has ID `id` (as is the case for every
stored ID when the IDs are pairwise distinct), after DeleteTask for `id` a following
GetTask for `id` returns the zero-valued response. -/
theorem DeleteTask_then_GetTask_zero (ts : TaskService) (id : Int)
    (h : ts.Tasks.countP (fun r => decide (r.ID = id)) = 1) :
    (GetTask (DeleteTask ts id {}).2 id {}).1 = ⟨Task.zero⟩ := by
  have hmem : ∃ t ∈ ts.Tasks, t.ID = id := by
    have hpos : 0 < ts.Tasks.countP (fun r => decide (r.ID = id)) := by omega
    obtain ⟨t, ht, hid⟩ := List.countP_pos_iff.1 hpos
    exact ⟨t, ht, by simpa using hid⟩
  obtain ⟨i, t, hs⟩ := rangeScan_of_mem id ts.Tasks hmem
  rw [DeleteTask_of_scan ts id i t hs]
  have habs := rangeScan_eraseIdx_absent id ts.Tasks 0 i t hs h
  rw [GetTask_of_absent _ id (by simpa using habs)]

/-- A witness of the amended C5: ID 7 is stored once, among other records. -/
theorem DeleteTask_then_GetTask_zero_witness :
    (GetTask (DeleteTask ⟨[⟨3, "a", "", false⟩, ⟨7, "b", "", true⟩, ⟨3, "c", "", false⟩]⟩ 7
        {}).2 7 {}).1 = ⟨Task.zero⟩ :=
  DeleteTask_then_GetTask_zero
    ⟨[⟨3, "a", "", false⟩, ⟨7, "b", "", true⟩, ⟨3, "c", "", false⟩]⟩ 7 (by decide)

/-- C6 as stated fails: two tasks with the same ID are created in the empty store, and
GetTask for that ID returns the first one, not the second. -/
theorem CreateTask_twice_same_id_returns_first :
    (GetTask (CreateTask (CreateTask ⟨[]⟩ ⟨⟨1, "a", "", false⟩⟩).2 ⟨⟨1, "b", "", false⟩⟩).2
        (⟨1, "b", "", false⟩ : Task).ID {}).1 = ⟨⟨1, "a", "", false⟩⟩
      ∧ (GetTask (CreateTask (CreateTask ⟨[]⟩ ⟨⟨1, "a", "", false⟩⟩).2 ⟨⟨1, "b", "", false⟩⟩).2
        (⟨1, "b", "", false⟩ : Task).ID {}).1 ≠ ⟨⟨1, "b", "", false⟩⟩ := by
  decide

/-- C6, amended. Starting from the empty store, after CreateTask of `a` and then of `b`,
GetTask for the ID of `b` returns exactly `b` when the two IDs differ, and returns `a`
(the first match) when `a` carries the same ID as `b`. -/
theorem CreateTask_twice_then_GetTask (a b : Task) :
    (GetTask (CreateTask (CreateTask ⟨[]⟩ ⟨a⟩).2 ⟨b⟩).2 b.ID {}).1
      = ⟨if a.ID = b.ID then a else b⟩ := by
  by_cases h : a.ID = b.ID
  · simp [GetTask, CreateTask, rangeScan, h]
  · simp [GetTask, CreateTask, rangeScan, h]

/-- C8. For an id that no stored record carries, UpdateTask (for any replacement),
DeleteTask and GetTask each return the zero-valued response and leave the task sequence
exactly as it was. -/
theorem absent_id_zero_response (ts : TaskService) (id : Int) (u : Task)
    (h : ∀ t ∈ ts.Tasks, t.ID ≠ id) :
    UpdateTask ts id ⟨u⟩ = (⟨Task.zero⟩, ts)
      ∧ DeleteTask ts id {} = (⟨Task.zero⟩, ts)
      ∧ GetTask ts id {} = (⟨Task.zero⟩, ts) := by
  have hs := (rangeScan_eq_none id ts.Tasks 0).2 h
  refine ⟨?_, ?_, ?_⟩
  · simp [UpdateTask, hs]
  · simp [DeleteTask, hs]
  · simp [GetTask, hs]

/-- A witness of C8: ID 999 in a store holding IDs 1 and 2. -/
theorem absent_id_zero_response_witness :
    UpdateTask ⟨[⟨1, "a", "", false⟩, ⟨2, "b", "", true⟩]⟩ 999 ⟨⟨999, "x", "y", true⟩⟩
        = (⟨Task.zero⟩, ⟨[⟨1, "a", "", false⟩, ⟨2, "b", "", true⟩]⟩)
      ∧ DeleteTask ⟨[⟨1, "a", "", false⟩, ⟨2, "b", "", true⟩]⟩ 999 {}
        = (⟨Task.zero⟩, ⟨[⟨1, "a", "", false⟩, ⟨2, "b", "", true⟩]⟩)
      ∧ GetTask ⟨[⟨1, "a", "", false⟩, ⟨2, "b", "", true⟩]⟩ 999 {}
        = (⟨Task.zero⟩, ⟨[⟨1, "a", "", false⟩, ⟨2, "b", "", true⟩]⟩) :=
  absent_id_zero_response ⟨[⟨1, "a", "", false⟩, ⟨2, "b", "", true⟩]⟩ 999
    ⟨999, "x", "y", true⟩ (by decide)

/-- C10. For every store, every task `t` and every replacement `u` with the ID of `t`,
after CreateTask of `t` and then UpdateTask for that ID with `u`, GetTask for that ID
returns `u` in full, no field taken from `t`, also when the store already held other
records with that ID. -/
theorem CreateTask_UpdateTask_GetTask (ts : TaskService) (t u : Task) (h : u.ID = t.ID) :
    (GetTask (UpdateTask (CreateTask ts ⟨t⟩).2 t.ID ⟨u⟩).2 t.ID {}).1 = ⟨u⟩ := by
  have hmem : ∃ r ∈ (CreateTask ts ⟨t⟩).2.Tasks, r.ID = t.ID :=
    ⟨t, by simp [CreateTask], rfl⟩
  obtain ⟨i, r, hs⟩ := rangeScan_of_mem t.ID _ hmem
  have hset := rangeScan_set t.ID u h _ 0 i r hs
  simp only [Nat.sub_zero] at hset
  simp [UpdateTask, GetTask, hs, hset]

/-- A witness of C10: the store already holds a record with ID 7 before the create. -/
theorem CreateTask_UpdateTask_GetTask_witness :
    (GetTask (UpdateTask (CreateTask ⟨[⟨3, "a", "", false⟩, ⟨7, "b", "", false⟩]⟩
        ⟨⟨7, "t", "td", false⟩⟩).2 (⟨7, "t", "td", false⟩ : Task).ID
        ⟨⟨7, "u", "ud", true⟩⟩).2 (⟨7, "t", "td", false⟩ : Task).ID {}).1
      = ⟨⟨7, "u", "ud", true⟩⟩ :=
  CreateTask_UpdateTask_GetTask ⟨[⟨3, "a", "", false⟩, ⟨7, "b", "", false⟩]⟩
    ⟨7, "t", "td", false⟩ ⟨7, "u", "ud", true⟩ rfl

end service

namespace controller

open model service

/-! ## The handlers -/

/-- C7. The 400 responses of the handlers are written by `http.Error`: the body is the
bare message followed by a newline, sent as `text/plain`, not the JSON error object that
the handlers' documentation announces. Evaluated at `GET /tasks/get?id=abc`, at
`GET /tasks/get` with no id, and at `POST /tasks/create` with a body made of one opening
brace under any decoder that rejects it: the status is 400, the content type is
`text/plain; charset=utf-8`, and the body is neither the text of the object with the
one member `error` nor the encoding of an `ErrorResponse`. -/
theorem bad_request_body_is_plain_text :
    GetTaskHandler ⟨⟨[⟨1, "T", "D", false⟩]⟩⟩ ⟨"GET", [("id", "abc")], ""⟩
        = (⟨400, "text/plain; charset=utf-8", .text "Invalid task ID\n"⟩,
            ⟨⟨[⟨1, "T", "D", false⟩]⟩⟩)
      ∧ GetTaskHandler ⟨⟨[⟨1, "T", "D", false⟩]⟩⟩ ⟨"GET", [], ""⟩
        = (⟨400, "text/plain; charset=utf-8", .text "Invalid task ID\n"⟩,
            ⟨⟨[⟨1, "T", "D", false⟩]⟩⟩)
      ∧ (∀ decode : String → Option CreateTaskRequest, decode "\x7b" = none →
          CreateTaskHandler decode ⟨⟨[⟨1, "T", "D", false⟩]⟩⟩ ⟨"POST", [], "\x7b"⟩
            = (⟨400, "text/plain; charset=utf-8", .text "Invalid request body\n"⟩,
                ⟨⟨[⟨1, "T", "D", false⟩]⟩⟩))
      ∧ (Body.text "Invalid task ID\n" ≠ .text "\x7b\"error\":\"Invalid task ID\"\x7d"
          ∧ Body.text "Invalid task ID\n" ≠ .text "\x7b\"error\":\"Invalid task ID\"\x7d\n"
          ∧ Body.text "Invalid task ID\n" ≠ .json (.error ⟨"Invalid task ID"⟩))
      ∧ (Body.text "Invalid request body\n"
            ≠ .text "\x7b\"error\":\"Invalid request body\"\x7d"
          ∧ Body.text "Invalid request body\n"
            ≠ .text "\x7b\"error\":\"Invalid request body\"\x7d\n"
          ∧ Body.text "Invalid request body\n" ≠ .json (.error ⟨"Invalid request body"⟩)) := by
  refine ⟨by decide, by decide, ?_, by decide, by decide⟩
  intro decode hd
  simp [CreateTaskHandler, hd, httpError]

/-- C9. Each of the five handlers answers a request whose method is not the one it
expects (POST for create, PUT for update, DELETE for delete, GET for get and for list)
with status 404 and the plain-text body `Not Found` (the line `http.Error` writes),
whatever the query parameters and the body are, and leaves the task sequence
unchanged. -/
theorem wrong_method_not_found (decodeCreate : String → Option CreateTaskRequest)
    (decodeUpdate : String → Option UpdateTaskRequest) (tc : TaskController) (r : Request) :
    (r.Method ≠ "POST" → CreateTaskHandler decodeCreate tc r
        = (⟨404, "text/plain; charset=utf-8", .text "Not Found\n"⟩, tc))
      ∧ (r.Method ≠ "PUT" → UpdateTaskHandler decodeUpdate tc r
        = (⟨404, "text/plain; charset=utf-8", .text "Not Found\n"⟩, tc))
      ∧ (r.Method ≠ "DELETE" → DeleteTaskHandler tc r
        = (⟨404, "text/plain; charset=utf-8", .text "Not Found\n"⟩, tc))
      ∧ (r.Method ≠ "GET" → GetTaskHandler tc r
        = (⟨404, "text/plain; charset=utf-8", .text "Not Found\n"⟩, tc))
      ∧ (r.Method ≠ "GET" → ListTasksHandler tc r
        = (⟨404, "text/plain; charset=utf-8", .text "Not Found\n"⟩, tc)) := by
  refine ⟨?_, ?_, ?_, ?_, ?_⟩ <;> intro h
  · simp only [CreateTaskHandler, h, if_true, ne_eq, not_false_eq_true]; rfl
  · simp only [UpdateTaskHandler, h, if_true, ne_eq, not_false_eq_true]; rfl
  · simp only [DeleteTaskHandler, h, if_true, ne_eq, not_false_eq_true]; rfl
  · simp only [GetTaskHandler, h, if_true, ne_eq, not_false_eq_true]; rfl
  · simp only [ListTasksHandler, h, if_true, ne_eq, not_false_eq_true]; rfl

/-- A witness of C9: `GET /tasks/update?id=1` with a body the decoder accepts, on a
store holding the task with ID 1; the same request sent to the create and delete
handlers. -/
theorem wrong_method_not_found_witness :
    UpdateTaskHandler (fun _ => some ⟨⟨1, "new", "n", true⟩⟩) ⟨⟨[⟨1, "T", "D", false⟩]⟩⟩
        ⟨"GET", [("id", "1")], "body"⟩
        = (⟨404, "text/plain; charset=utf-8", .text "Not Found\n"⟩, ⟨⟨[⟨1, "T", "D", false⟩]⟩⟩)
      ∧ CreateTaskHandler (fun _ => some ⟨⟨2, "new", "n", true⟩⟩) ⟨⟨[⟨1, "T", "D", false⟩]⟩⟩
        ⟨"GET", [("id", "1")], "body"⟩
        = (⟨404, "text/plain; charset=utf-8", .text "Not Found\n"⟩, ⟨⟨[⟨1, "T", "D", false⟩]⟩⟩)
      ∧ DeleteTaskHandler ⟨⟨[⟨1, "T", "D", false⟩]⟩⟩ ⟨"GET", [("id", "1")], "body"⟩
        = (⟨404, "text/plain; charset=utf-8", .text "Not Found\n"⟩,
            ⟨⟨[⟨1, "T", "D", false⟩]⟩⟩) :=
  have h := wrong_method_not_found (fun _ => some ⟨⟨2, "new", "n", true⟩⟩)
    (fun _ => some ⟨⟨1, "new", "n", true⟩⟩) ⟨⟨[⟨1, "T", "D", false⟩]⟩⟩
    ⟨"GET", [("id", "1")], "body"⟩
  ⟨h.2.1 (by decide), h.1 (by decide), h.2.2.1 (by decide)⟩

end controller

namespace controller

open model service

/-- C11. Called with the expected method and an `id` query parameter that parses as a
base-10 `int64` (and, for update, a body that decodes), GetTaskHandler,
DeleteTaskHandler and UpdateTaskHandler answer with status 200, content type
`application/json` and the encoding of the service response as body, whether or not a
stored record has that id; the store after the call is the one the service left. With
its expected method no handler answers 404. -/
theorem expected_method_ok_json (decodeCreate : String → Option CreateTaskRequest)
    (decodeUpdate : String → Option UpdateTaskRequest) (tc : TaskController) (r : Request) :
    (∀ id, r.Method = "GET" → ParseInt (queryGet r.Query "id") = some id →
        GetTaskHandler tc r
          = (⟨200, "application/json", .json (.get (GetTask tc.TaskService id {}).1)⟩,
              ⟨(GetTask tc.TaskService id {}).2⟩))
      ∧ (∀ id, r.Method = "DELETE" → ParseInt (queryGet r.Query "id") = some id →
        DeleteTaskHandler tc r
          = (⟨200, "application/json", .json (.delete (DeleteTask tc.TaskService id {}).1)⟩,
              ⟨(DeleteTask tc.TaskService id {}).2⟩))
      ∧ (∀ id req, r.Method = "PUT" → ParseInt (queryGet r.Query "id") = some id →
        decodeUpdate r.Body = some req →
        UpdateTaskHandler decodeUpdate tc r
          = (⟨200, "application/json", .json (.update (UpdateTask tc.TaskService id req).1)⟩,
              ⟨(UpdateTask tc.TaskService id req).2⟩))
      ∧ (r.Method = "GET" → (GetTaskHandler tc r).1.Status ≠ 404)
      ∧ (r.Method = "DELETE" → (DeleteTaskHandler tc r).1.Status ≠ 404)
      ∧ (r.Method = "PUT" → (UpdateTaskHandler decodeUpdate tc r).1.Status ≠ 404)
      ∧ (r.Method = "POST" → (CreateTaskHandler decodeCreate tc r).1.Status ≠ 404)
      ∧ (r.Method = "GET" → (ListTasksHandler tc r).1.Status ≠ 404) := by
  refine ⟨?_, ?_, ?_, ?_, ?_, ?_, ?_, ?_⟩
  · intro id hm hid
    simp [GetTaskHandler, hm, hid, writeJSON]
  · intro id hm hid
    simp [DeleteTaskHandler, hm, hid, writeJSON]
  · intro id req hm hid hd
    simp [UpdateTaskHandler, hm, hid, hd, writeJSON]
  · intro hm
    cases hid : ParseInt (queryGet r.Query "id") <;>
      simp [GetTaskHandler, hm, hid, writeJSON, httpError]
  · intro hm
    cases hid : ParseInt (queryGet r.Query "id") <;>
      simp [DeleteTaskHandler, hm, hid, writeJSON, httpError]
  · intro hm
    cases hid : ParseInt (queryGet r.Query "id") <;> cases hd : decodeUpdate r.Body <;>
      simp [UpdateTaskHandler, hm, hid, hd, writeJSON, httpError]
  · intro hm
    cases hd : decodeCreate r.Body <;>
      simp [CreateTaskHandler, hm, hd, writeJSON, httpError]
  · intro hm
    simp [ListTasksHandler, hm, writeJSON]

/-- A witness of C11: `GET /tasks/get?id=999` on a store that holds only ID 1 is
answered with status 200 and the encoding of the zero-valued task. -/
theorem expected_method_ok_json_witness :
    GetTaskHandler ⟨⟨[⟨1, "T", "D", false⟩]⟩⟩ ⟨"GET", [("id", "999")], ""⟩
      = (⟨200, "application/json", .json (.get ⟨Task.zero⟩)⟩, ⟨⟨[⟨1, "T", "D", false⟩]⟩⟩) :=
  (expected_method_ok_json (fun _ => none) (fun _ => none) ⟨⟨[⟨1, "T", "D", false⟩]⟩⟩
    ⟨"GET", [("id", "999")], ""⟩).1 999 rfl (by decide)

/-- C12. UpdateTaskHandler called with PUT validates the id before the body: when the
`id` query parameter is missing or does not parse as a base-10 `int64` the answer is
400 with the message `Invalid task ID`, whatever the body is and whatever the decoder
makes of it; when the id parses and the body fails to decode the answer is 400 with the
message `Invalid request body`. In both cases the store is returned as it was, the
service not having been called. -/
theorem UpdateTaskHandler_validation_order (decodeUpdate : String → Option UpdateTaskRequest)
    (tc : TaskController) (r : Request) (hm : r.Method = "PUT") :
    (ParseInt (queryGet r.Query "id") = none →
        UpdateTaskHandler decodeUpdate tc r
          = (⟨400, "text/plain; charset=utf-8", .text "Invalid task ID\n"⟩, tc))
      ∧ (∀ id, ParseInt (queryGet r.Query "id") = some id → decodeUpdate r.Body = none →
        UpdateTaskHandler decodeUpdate tc r
          = (⟨400, "text/plain; charset=utf-8", .text "Invalid request body\n"⟩, tc)) := by
  refine ⟨?_, ?_⟩
  · intro hid
    simp [UpdateTaskHandler, hm, hid, httpError]
  · intro id hid hd
    simp [UpdateTaskHandler, hm, hid, hd, httpError]

/-- A witness of C12: `PUT /tasks/update?id=abc` with a body that would decode is
refused for its id; `PUT /tasks/update?id=1` with a body that does not decode is refused
for its body; the stored task with ID 1 is untouched in both. -/
theorem UpdateTaskHandler_validation_order_witness :
    UpdateTaskHandler (fun _ => some ⟨⟨1, "new", "n", true⟩⟩) ⟨⟨[⟨1, "T", "D", false⟩]⟩⟩
        ⟨"PUT", [("id", "abc")], "body"⟩
        = (⟨400, "text/plain; charset=utf-8", .text "Invalid task ID\n"⟩,
            ⟨⟨[⟨1, "T", "D", false⟩]⟩⟩)
      ∧ UpdateTaskHandler (fun _ => none) ⟨⟨[⟨1, "T", "D", false⟩]⟩⟩
        ⟨"PUT", [("id", "1")], "body"⟩
        = (⟨400, "text/plain; charset=utf-8", .text "Invalid request body\n"⟩,
            ⟨⟨[⟨1, "T", "D", false⟩]⟩⟩) :=
  ⟨(UpdateTaskHandler_validation_order (fun _ => some ⟨⟨1, "new", "n", true⟩⟩)
      ⟨⟨[⟨1, "T", "D", false⟩]⟩⟩ ⟨"PUT", [("id", "abc")], "body"⟩ rfl).1 (by decide),
   (UpdateTaskHandler_validation_order (fun _ => none)
      ⟨⟨[⟨1, "T", "D", false⟩]⟩⟩ ⟨"PUT", [("id", "1")], "body"⟩ rfl).2 1 (by decide) rfl⟩

end controller

namespace service

open model

/-! ## Listing, and lookups of other IDs -/

theorem foldl_CreateTask (l : List Task) :
    ∀ s : TaskService,
      (l.foldl (fun s x => (CreateTask s ⟨x⟩).2) s).Tasks = s.Tasks ++ l := by
  induction l with
  | nil => intro s; simp
  | cons a rest ih =>
    intro s
    rw [List.foldl_cons, ih]
    simp [CreateTask]

theorem rangeScan_snd_eq_find (id : Int) :
    ∀ (l : List Task) (k : Nat),
      (rangeScan id l k).map Prod.snd = l.find? (fun t => decide (t.ID = id)) := by
  intro l
  induction l with
  | nil => intro k; simp [rangeScan]
  | cons a rest ih =>
    intro k
    by_cases ha : a.ID = id
    · simp [rangeScan, ha]
    · simp [rangeScan, ha, ih (k + 1)]

theorem GetTask_eq_find (ts : TaskService) (id : Int) :
    (GetTask ts id {}).1
      = ⟨(ts.Tasks.find? (fun t => decide (t.ID = id))).getD Task.zero⟩ := by
  rw [← rangeScan_snd_eq_find id ts.Tasks 0]
  unfold GetTask
  cases rangeScan id ts.Tasks 0 <;> rfl

theorem find_eraseIdx_of_not (p : Task → Bool) :
    ∀ (l : List Task) (i : Nat) (t : Task), l[i]? = some t → p t = false →
      (l.eraseIdx i).find? p = l.find? p := by
  intro l
  induction l with
  | nil => intro i t h; simp at h
  | cons a rest ih =>
    intro i t h hp
    cases i with
    | zero =>
      simp at h
      subst h
      simp [List.find?_cons, hp]
    | succ i =>
      simp at h
      simp only [List.eraseIdx_cons_succ, List.find?_cons]
      rw [ih i t h hp]

theorem find_set_of_not (p : Task → Bool) (u : Task) (hu : p u = false) :
    ∀ (l : List Task) (i : Nat) (t : Task), l[i]? = some t → p t = false →
      (l.set i u).find? p = l.find? p := by
  intro l
  induction l with
  | nil => intro i t h; simp at h
  | cons a rest ih =>
    intro i t h hp
    cases i with
    | zero =>
      simp at h
      subst h
      simp [List.find?_cons, hp, hu]
    | succ i =>
      simp at h
      simp only [List.set_cons_succ, List.find?_cons]
      rw [ih i t h hp]

/-- C13. ListTasks returns the whole stored sequence in its current order and does not
modify it; starting from the empty store and calling CreateTask on the tasks of a list
in turn, ListTasks returns exactly that list; in particular one CreateTask followed by
ListTasks yields the one-element sequence holding the created task. -/
theorem ListTasks_insertion_order (ts : TaskService) (l : List Task) (t : Task) :
    ListTasks ts {} = (⟨ts.Tasks⟩, ts)
      ∧ (ListTasks (l.foldl (fun s x => (CreateTask s ⟨x⟩).2) ⟨[]⟩) {}).1 = ⟨l⟩
      ∧ (ListTasks (l.foldl (fun s x => (CreateTask s ⟨x⟩).2) ⟨[]⟩) {}).2
          = l.foldl (fun s x => (CreateTask s ⟨x⟩).2) ⟨[]⟩
      ∧ (ListTasks (CreateTask ⟨[]⟩ ⟨t⟩).2 {}).1 = ⟨[t]⟩ := by
  refine ⟨rfl, ?_, rfl, rfl⟩
  simp [ListTasks, foldl_CreateTask]

/-- C15. Operations on one ID do not disturb lookups of other IDs: for an id `j`
different from `id`, GetTask for `j` returns the same response after DeleteTask for
`id` as before it, and the same response after UpdateTask for `id` with a replacement
whose ID is `id` as before it. -/
theorem GetTask_other_id_unchanged (ts : TaskService) (id j : Int) (u : Task)
    (hj : j ≠ id) :
    (GetTask (DeleteTask ts id {}).2 j {}).1 = (GetTask ts j {}).1
      ∧ (u.ID = id → (GetTask (UpdateTask ts id ⟨u⟩).2 j {}).1 = (GetTask ts j {}).1) := by
  cases hs : rangeScan id ts.Tasks 0 with
  | none => simp [DeleteTask, UpdateTask, hs]
  | some p =>
    obtain ⟨i, t⟩ := p
    have hfm := (rangeScan_zero_eq_some id ts.Tasks i t).1 hs
    have hpt : (fun r : Task => decide (r.ID = j)) t = false := by
      simp only [decide_eq_false_iff_not]
      rw [hfm.2.1]
      exact fun h => hj h.symm
    refine ⟨?_, ?_⟩
    · rw [DeleteTask_of_scan ts id i t hs, GetTask_eq_find, GetTask_eq_find]
      simp only
      rw [find_eraseIdx_of_not _ ts.Tasks i t hfm.1 hpt]
    · intro hu
      have hpu : (fun r : Task => decide (r.ID = j)) u = false := by
        simp only [decide_eq_false_iff_not]
        rw [hu]
        exact fun h => hj h.symm
      rw [GetTask_eq_find, GetTask_eq_find]
      simp only [UpdateTask, hs]
      rw [find_set_of_not _ u hpu ts.Tasks i t hfm.1 hpt]

/-- A witness of C15: the store holds ID 7 twice and ID 3 after them; deleting or
updating ID 7 leaves the lookup of ID 3 as it was. -/
theorem GetTask_other_id_unchanged_witness :
    (GetTask (DeleteTask ⟨[⟨7, "a", "", false⟩, ⟨7, "b", "", false⟩, ⟨3, "c", "", true⟩]⟩ 7
        {}).2 3 {}).1
        = (GetTask ⟨[⟨7, "a", "", false⟩, ⟨7, "b", "", false⟩, ⟨3, "c", "", true⟩]⟩ 3 {}).1
      ∧ (GetTask (UpdateTask ⟨[⟨7, "a", "", false⟩, ⟨7, "b", "", false⟩, ⟨3, "c", "", true⟩]⟩
        7 ⟨⟨7, "u", "ud", true⟩⟩).2 3 {}).1
        = (GetTask ⟨[⟨7, "a", "", false⟩, ⟨7, "b", "", false⟩, ⟨3, "c", "", true⟩]⟩ 3 {}).1 :=
  have h := GetTask_other_id_unchanged
    ⟨[⟨7, "a", "", false⟩, ⟨7, "b", "", false⟩, ⟨3, "c", "", true⟩]⟩ 7 3
    ⟨7, "u", "ud", true⟩ (by decide)
  ⟨h.1, h.2 rfl⟩

end service

namespace service

open model

/-! ## Pairwise distinct IDs -/

theorem rangeScan_set_absent (id : Int) (u : Task) (hu : u.ID ≠ id) :
    ∀ (l : List Task) (k i : Nat) (t : Task), DistinctIDs l →
      rangeScan id l k = some (i, t) → ∀ r ∈ l.set (i - k) u, r.ID ≠ id := by
  intro l
  induction l with
  | nil => intro k i t _ h; simp [rangeScan] at h
  | cons a rest ih =>
    intro k i t hd h
    have hd2 := List.pairwise_cons.1 hd
    by_cases ha : a.ID = id
    · simp only [rangeScan, ha, if_true, Option.some.injEq, Prod.mk.injEq] at h
      obtain ⟨rfl, -⟩ := h
      intro r hr
      simp only [Nat.sub_self, List.set_cons_zero, List.mem_cons] at hr
      rcases hr with rfl | hr
      · exact hu
      · have := hd2.1 r hr
        rw [ha] at this
        exact fun h => this h.symm
    · simp only [rangeScan, ha, if_false] at h
      have hge := rangeScan_index_ge id rest (k + 1) i t h
      have hs : i - k = (i - (k + 1)) + 1 := by omega
      intro r hr
      rw [hs, List.set_cons_succ, List.mem_cons] at hr
      rcases hr with rfl | hr
      · exact ha
      · exact ih (k + 1) i t hd2.2 h r hr

theorem DistinctIDs_set (u : Task) :
    ∀ (l : List Task) (i : Nat) (t : Task), DistinctIDs l → l[i]? = some t → u.ID = t.ID →
      DistinctIDs (l.set i u) := by
  intro l
  induction l with
  | nil => intro i t _ h; simp at h
  | cons a rest ih =>
    intro i t hd h hu
    have hd2 := List.pairwise_cons.1 hd
    cases i with
    | zero =>
      simp at h
      subst h
      exact List.pairwise_cons.2 ⟨fun b hb => by rw [hu]; exact hd2.1 b hb, hd2.2⟩
    | succ i =>
      simp at h
      refine List.pairwise_cons.2 ⟨?_, ih i t hd2.2 h hu⟩
      intro b hb
      rcases List.mem_or_eq_of_mem_set hb with hb | rfl
      · exact hd2.1 b hb
      · rw [hu]
        exact hd2.1 t (List.getElem?_mem h)

/-- C14. UpdateTask overwrites the stored record's ID with the replacement's ID and so
orphans the record from its original ID: in a store whose IDs are pairwise distinct, for
an id that is present and a replacement `u` whose ID differs from it, after UpdateTask
the sequence has the same length and holds `u` at the position of the former record,
and GetTask for the original id returns the zero-valued response. -/
theorem UpdateTask_orphans_original_id (ts : TaskService) (id : Int) (u : Task)
    (hd : DistinctIDs ts.Tasks) (h : ∃ t ∈ ts.Tasks, t.ID = id) (hu : u.ID ≠ id) :
    ∃ i old, FirstMatch ts.Tasks id i old
      ∧ (UpdateTask ts id ⟨u⟩).2.Tasks.length = ts.Tasks.length
      ∧ (UpdateTask ts id ⟨u⟩).2.Tasks[i]? = some u
      ∧ (GetTask (UpdateTask ts id ⟨u⟩).2 id {}).1 = ⟨Task.zero⟩ := by
  obtain ⟨i, old, hs⟩ := rangeScan_of_mem id ts.Tasks h
  have hfm := (rangeScan_zero_eq_some id ts.Tasks i old).1 hs
  have hlt := hfm.lt_length
  have habs := rangeScan_set_absent id u hu ts.Tasks 0 i old hd hs
  simp only [Nat.sub_zero] at habs
  refine ⟨i, old, hfm, ?_, ?_, ?_⟩
  · simp [UpdateTask, hs]
  · simp [UpdateTask, hs, hlt]
  · have hst : (UpdateTask ts id ⟨u⟩).2 = ⟨ts.Tasks.set i u⟩ := by simp [UpdateTask, hs]
    rw [hst, GetTask_of_absent _ id habs]

/-- A witness of C14: in a store with IDs 3, 7 and 5 the record with ID 7 is replaced by
one with ID 9; the lookup of ID 7 then finds nothing. -/
theorem UpdateTask_orphans_original_id_witness :
    (GetTask (UpdateTask ⟨[⟨3, "a", "", false⟩, ⟨7, "b", "", false⟩, ⟨5, "c", "", true⟩]⟩ 7
        ⟨⟨9, "u", "ud", true⟩⟩).2 7 {}).1 = ⟨Task.zero⟩ := by
  obtain ⟨_, _, _, _, _, hget⟩ := UpdateTask_orphans_original_id
    ⟨[⟨3, "a", "", false⟩, ⟨7, "b", "", false⟩, ⟨5, "c", "", true⟩]⟩ 7 ⟨9, "u", "ud", true⟩
    (by decide) (by decide) (by decide)
  exact hget

/-- C16. Pairwise distinctness of the stored IDs is kept by every operation other than a
create that reuses a stored ID or an update that changes the ID: when the stored IDs are
pairwise distinct they still are after DeleteTask for any id, after UpdateTask with a
replacement that carries the id it is stored under, after GetTask and ListTasks, and
after CreateTask of a task whose ID no stored record has; a create that reuses a stored
ID does break it. -/
theorem DistinctIDs_preserved (ts : TaskService) (id : Int) (u t : Task)
    (hd : DistinctIDs ts.Tasks) :
    DistinctIDs (DeleteTask ts id {}).2.Tasks
      ∧ (u.ID = id → DistinctIDs (UpdateTask ts id ⟨u⟩).2.Tasks)
      ∧ DistinctIDs (GetTask ts id {}).2.Tasks
      ∧ DistinctIDs (ListTasks ts {}).2.Tasks
      ∧ (DistinctIDs (CreateTask ts ⟨t⟩).2.Tasks ↔ ∀ r ∈ ts.Tasks, r.ID ≠ t.ID) := by
  refine ⟨?_, ?_, ?_, hd, ?_⟩
  · cases hs : rangeScan id ts.Tasks 0 with
    | none => simpa [DeleteTask, hs] using hd
    | some p =>
      rw [DeleteTask_of_scan ts id p.1 p.2 hs]
      exact List.Pairwise.sublist (List.eraseIdx_sublist ts.Tasks p.1) hd
  · intro hu
    cases hs : rangeScan id ts.Tasks 0 with
    | none => simpa [UpdateTask, hs] using hd
    | some p =>
      obtain ⟨i, old⟩ := p
      have hfm := (rangeScan_zero_eq_some id ts.Tasks i old).1 hs
      have := DistinctIDs_set u ts.Tasks i old hd hfm.1 (hu.trans hfm.2.1.symm)
      simpa [UpdateTask, hs] using this
  · cases hs : rangeScan id ts.Tasks 0 <;> simpa [GetTask, hs] using hd
  · show DistinctIDs (ts.Tasks ++ [t]) ↔ _
    unfold DistinctIDs
    rw [List.pairwise_append]
    constructor
    · rintro ⟨_, _, h⟩ r hr
      exact h r hr t (by simp)
    · intro h
      refine ⟨hd, by simp, ?_⟩
      intro a ha b hb
      simp only [List.mem_singleton] at hb
      subst hb
      exact h a ha

/-- A witness of C16: a store with the distinct IDs 3, 7 and 5. -/
theorem DistinctIDs_preserved_witness :
    DistinctIDs (DeleteTask ⟨[⟨3, "a", "", false⟩, ⟨7, "b", "", false⟩, ⟨5, "c", "", true⟩]⟩ 7
        {}).2.Tasks
      ∧ DistinctIDs (UpdateTask ⟨[⟨3, "a", "", false⟩, ⟨7, "b", "", false⟩, ⟨5, "c", "", true⟩]⟩
        7 ⟨⟨7, "u", "ud", true⟩⟩).2.Tasks
      ∧ DistinctIDs (CreateTask ⟨[⟨3, "a", "", false⟩, ⟨7, "b", "", false⟩, ⟨5, "c", "", true⟩]⟩
        ⟨⟨8, "t", "td", false⟩⟩).2.Tasks :=
  have h := DistinctIDs_preserved
    ⟨[⟨3, "a", "", false⟩, ⟨7, "b", "", false⟩, ⟨5, "c", "", true⟩]⟩ 7
    ⟨7, "u", "ud", true⟩ ⟨8, "t", "td", false⟩ (by decide)
  ⟨h.1, h.2.1 rfl, h.2.2.2.2.2 (by decide)⟩

end service
